import Mathlib

/-!
Shallow embedding of `src/kernel/src/arch/riscv32/paging.rs`, the RISC-V
paging layer of the rCore kernel. A hardware page-table entry is modelled as
a physical page number together with the ten defined RV32 flag bits, exactly
the view the source manipulates through the `riscv` crate's
`PageTableEntry` / `PageTableFlags` API (`flags`, `flags_mut().set/remove`,
`addr`, `set`, `is_unused`). Machine addresses are `Nat`; page offsets and
frame numbers use explicit shifts by 12 as in the source.
-/

/-- The ten defined flag bits of an Sv32 page-table entry
(`PageTableFlags`: VALID, READABLE, WRITABLE, EXECUTABLE, USER, GLOBAL,
ACCESSED, DIRTY, RESERVED1, RESERVED2). -/
structure EF where
  valid : Bool
  readable : Bool
  writable : Bool
  executable : Bool
  user : Bool
  global : Bool
  accessed : Bool
  dirty : Bool
  reserved1 : Bool
  reserved2 : Bool
deriving DecidableEq

/-- The empty flag set (all bits clear). -/
def EF.empty : EF :=
  ⟨false, false, false, false, false, false, false, false, false, false⟩

/-- `EF::VALID | EF::READABLE | EF::WRITABLE`, the default flags installed by
`ActivePageTable::map`. -/
def EF.defaultMap : EF :=
  ⟨true, true, true, false, false, false, false, false, false, false⟩

/-- `EF::VALID` alone, the flags the walker places on an intermediate-level
entry pointing at a newly created next-level table. -/
def EF.validOnly : EF :=
  ⟨true, false, false, false, false, false, false, false, false, false⟩

/-- One raw page-table entry: physical page number (bits 10.. of the raw
word) plus the flag bits (bits 0..10). -/
structure PageTableEntry where
  ppn : Nat
  flags : EF
deriving DecidableEq

/-- The all-zero entry (`self.0 == 0`). -/
def PageTableEntry.unused : PageTableEntry := ⟨0, EF.empty⟩

/-- `PageTableEntry::is_unused`: the raw word is zero. -/
def PageTableEntry.is_unused (e : PageTableEntry) : Bool :=
  decide (e = PageTableEntry.unused)

/-- `PageTableEntry::addr`: the base physical address of the referenced
frame, `ppn << 12`. -/
def PageTableEntry.addr (e : PageTableEntry) : Nat := e.ppn <<< 12

/-- `Frame::of_addr(PhysAddr::new(a)).number()`: the physical page number of
the frame containing address `a`. -/
def frameNumber (a : Nat) : Nat := a >>> 12

/-- The base address of the frame containing physical address `a`. -/
def frameBase (a : Nat) : Nat := (a >>> 12) <<< 12

/-! `impl Entry for PageEntry` from the source: each operation reads or
rewrites one entry in place. The mutators return the new entry value. -/

/-- `fn present`: `flags().contains(EF::VALID | EF::READABLE)`. -/
def PageEntry.present (e : PageTableEntry) : Bool :=
  e.flags.valid && e.flags.readable

/-- `fn writable`: `flags().contains(EF::WRITABLE)`. -/
def PageEntry.writable (e : PageTableEntry) : Bool := e.flags.writable

/-- `fn accessed`. -/
def PageEntry.accessed (e : PageTableEntry) : Bool := e.flags.accessed

/-- `fn dirty`. -/
def PageEntry.dirty (e : PageTableEntry) : Bool := e.flags.dirty

/-- `fn user`. -/
def PageEntry.user (e : PageTableEntry) : Bool := e.flags.user

/-- `fn execute`. -/
def PageEntry.execute (e : PageTableEntry) : Bool := e.flags.executable

/-- `fn clear_accessed`: `flags_mut().remove(EF::ACCESSED)`. -/
def PageEntry.clear_accessed (e : PageTableEntry) : PageTableEntry :=
  { e with flags := { e.flags with accessed := false } }

/-- `fn clear_dirty`: `flags_mut().remove(EF::DIRTY)`. -/
def PageEntry.clear_dirty (e : PageTableEntry) : PageTableEntry :=
  { e with flags := { e.flags with dirty := false } }

/-- `fn set_writable`: `flags_mut().set(EF::WRITABLE, value)`. -/
def PageEntry.set_writable (e : PageTableEntry) (value : Bool) : PageTableEntry :=
  { e with flags := { e.flags with writable := value } }

/-- `fn set_present`: `flags_mut().set(EF::VALID | EF::READABLE, value)`
sets or clears both bits together. -/
def PageEntry.set_present (e : PageTableEntry) (value : Bool) : PageTableEntry :=
  { e with flags := { e.flags with valid := value, readable := value } }

/-- `fn target`: `addr().as_usize()`. -/
def PageEntry.target (e : PageTableEntry) : Nat := e.addr

/-- `fn set_target`: rewrite the frame reference keeping the current flags
(`let flags = self.0.flags(); self.0.set(Frame::of_addr(target), flags)`). -/
def PageEntry.set_target (e : PageTableEntry) (target : Nat) : PageTableEntry :=
  { e with ppn := frameNumber target }

/-- `fn writable_shared`: `flags().contains(EF::RESERVED1)`. -/
def PageEntry.writable_shared (e : PageTableEntry) : Bool := e.flags.reserved1

/-- `fn readonly_shared`: `flags().contains(EF::RESERVED2)`. -/
def PageEntry.readonly_shared (e : PageTableEntry) : Bool := e.flags.reserved2

/-- `fn set_shared`: RESERVED1 := writable, RESERVED2 := !writable. -/
def PageEntry.set_shared (e : PageTableEntry) (writable : Bool) : PageTableEntry :=
  { e with flags := { e.flags with reserved1 := writable, reserved2 := !writable } }

/-- `fn clear_shared`: `remove(EF::RESERVED1 | EF::RESERVED2)`. -/
def PageEntry.clear_shared (e : PageTableEntry) : PageTableEntry :=
  { e with flags := { e.flags with reserved1 := false, reserved2 := false } }

/-- `fn swapped`: `flags().contains(EF::RESERVED1)` — the same bit as
`writable_shared`. -/
def PageEntry.swapped (e : PageTableEntry) : Bool := e.flags.reserved1

/-- `fn set_swapped`: `flags_mut().set(EF::RESERVED1, value)`. -/
def PageEntry.set_swapped (e : PageTableEntry) (value : Bool) : PageTableEntry :=
  { e with flags := { e.flags with reserved1 := value } }

/-- `fn set_user`. -/
def PageEntry.set_user (e : PageTableEntry) (value : Bool) : PageTableEntry :=
  { e with flags := { e.flags with user := value } }

/-- `fn set_execute`. -/
def PageEntry.set_execute (e : PageTableEntry) (value : Bool) : PageTableEntry :=
  { e with flags := { e.flags with executable := value } }

/-- `fn mmio`: the riscv32 variant has no MMIO attribute bits and returns a
fixed 0. -/
def PageEntry.mmio (_e : PageTableEntry) : Nat := 0

/-- `fn set_mmio`: ignored on this architecture variant. -/
def PageEntry.set_mmio (e : PageTableEntry) (_value : Nat) : PageTableEntry := e

/-! Two-level Sv32 page-table walk. The source drives it through
`TwoLevelPageTable::{map_to, unmap, ref_entry}` of the `riscv` crate; the
walk below is that crate's documented behaviour as the source uses it: the
root (p2) table is indexed by bits 22..32 of the virtual address, a
second-level (p1) table by bits 12..22; a missing p1 table is created from a
freshly allocated, zeroed frame whose root entry carries `EF::VALID`;
`map_to` refuses an already-used leaf slot; `unmap` refuses a non-valid
leaf; `ref_entry` fails only when the intermediate level is absent. Physical
memory holding p1 tables is a map from frame number to table contents, and
the allocator is the list of still-free frame numbers. -/

/-- A 1024-entry page table, indexed by `Nat` (only indices below 1024 are
ever produced by the walk). -/
abbrev PTable := Nat → PageTableEntry

/-- `RvPageTable::zero()`: the all-unused table. -/
def zeroTable : PTable := fun _ => PageTableEntry.unused

/-- Bits 22..32 of a virtual address: the root-table (p2) index. -/
def vpn1 (v : Nat) : Nat := (v >>> 22) &&& 1023

/-- Bits 12..22 of a virtual address: the second-level (p1) index. -/
def vpn0 (v : Nat) : Nat := (v >>> 12) &&& 1023

/-- The state a walk runs against: the root table, the contents of physical
frames interpreted as p1 tables, and the free list of the external frame
allocator (`FrameAllocatorForRiscv` backed by `alloc_frame`). -/
structure PTState where
  p2 : PTable
  p1mem : Nat → PTable
  free : List Nat

/-- Observable memory events, used to state the flush-ordering claim: a
structural mutation of a table, or a translation-cache invalidation
(`sfence_vma` / `sfence_vma_all` / `MapperFlush::flush`). -/
inductive Event where
  | mutate : Event
  | flush : Event
deriving DecidableEq

/-- The walker's step ensuring the p1 table for root index `i1` exists: if
the root entry is valid it is reused, otherwise one frame is taken from the
allocator, zeroed, and installed with `EF::VALID` (an allocation failure is
fatal, modelled as `Except.error`). Returns the p1 frame number, the new
state, and the table-mutation events performed. -/
def ensureP1 (st : PTState) (i1 : Nat) :
    Except Unit (Nat × PTState × List Event) :=
  if (st.p2 i1).flags.valid then
    Except.ok ((st.p2 i1).ppn, st, [])
  else
    match st.free with
    | [] => Except.error ()
    | f :: rest =>
      Except.ok (f,
        { p2 := Function.update st.p2 i1 ⟨f, EF.validOnly⟩,
          p1mem := Function.update st.p1mem f zeroTable,
          free := rest },
        [Event.mutate])

/-- `ActivePageTable::map`: `map_to(page, frame, VALID|READABLE|WRITABLE)`
followed by `.unwrap().flush()`. Creating a missing p1 level may allocate;
an exhausted allocator or an already-used leaf slot is fatal
(`Except.error`, the `unwrap` panic). On success the returned event list is
what the call performed, ending in the page flush. -/
def ActivePageTable.map (st : PTState) (addr target : Nat) :
    Except Unit (PTState × List Event) :=
  match ensureP1 st (vpn1 addr) with
  | Except.error () => Except.error ()
  | Except.ok (f, st1, ev1) =>
    if (st1.p1mem f (vpn0 addr)).is_unused then
      Except.ok
        ({ st1 with
            p1mem := Function.update st1.p1mem f
              (Function.update (st1.p1mem f) (vpn0 addr)
                ⟨frameNumber target, EF.defaultMap⟩) },
          ev1 ++ [Event.mutate, Event.flush])
    else
      Except.error ()

/-- `ActivePageTable::unmap`: `unmap(page).unwrap()` then `flush.flush()`.
A missing intermediate level or a non-valid leaf makes `unwrap` panic
(`Except.error`); otherwise the leaf is cleared and the page flushed. -/
def ActivePageTable.unmap (st : PTState) (addr : Nat) :
    Except Unit (PTState × List Event) :=
  if (st.p2 (vpn1 addr)).flags.valid then
    if (st.p1mem (st.p2 (vpn1 addr)).ppn (vpn0 addr)).flags.valid then
      Except.ok
        ({ st with
            p1mem := Function.update st.p1mem (st.p2 (vpn1 addr)).ppn
              (Function.update (st.p1mem (st.p2 (vpn1 addr)).ppn)
                (vpn0 addr) PageTableEntry.unused) },
          [Event.mutate, Event.flush])
    else
      Except.error ()
  else
    Except.error ()

/-- `ActivePageTable::get_entry`: `ref_entry(page)` made into an `Option` —
`some` exactly when the intermediate level exists (the leaf itself may still
be unused); never allocates and never mutates. -/
def ActivePageTable.get_entry (st : PTState) (vaddr : Nat) :
    Option PageTableEntry :=
  if (st.p2 (vpn1 vaddr)).flags.valid then
    some (st.p1mem (st.p2 (vpn1 vaddr)).ppn (vpn0 vaddr))
  else
    none

/-- `PageEntry::update`: `sfence_vma(0, page_start)` — invalidate the
translation-cache entry of the owning page. One flush event. -/
def PageEntry.update_events : List Event := [Event.flush]

/-- An entry flag change committed via `update()`: the in-place mutation of
the entry followed by the flush `update` performs. -/
def committed_flag_change_events : List Event :=
  Event.mutate :: PageEntry.update_events

/-- Events of the riscv64 `edit`: hijack the active root's recursive slot
(`root_table[RECURSIVE_INDEX].set(...)` then `sfence_vma_all`), run `f`
(events `trF`), restore the backup (`root_table[RECURSIVE_INDEX] = backup`
then `sfence_vma_all`). -/
def edit_events (trF : List Event) : List Event :=
  [Event.mutate, Event.flush] ++ trF ++ [Event.mutate, Event.flush]

/-- riscv64 `InactivePageTable0::edit`: back up the active root's recursive
slot, overwrite it with an `EF::VALID` entry naming this space's root frame,
flush, run the supplied `f` — whose map/unmap calls now reach the inactive
space through the recursive window, modelled as `f` acting on the inactive
space's contents `M` — then restore the backed-up slot, flush, and hand back
`f`'s result (which may itself be a failure value of type `T`). -/
def InactivePageTable0.edit {T M : Type} (recIdx rootFrame : Nat)
    (f : M → T × M) (activeRoot : PTable) (inactive : M) :
    T × PTable × M :=
  let backup := activeRoot recIdx
  let hijacked := Function.update activeRoot recIdx ⟨rootFrame, EF.validOnly⟩
  let result := f inactive
  let restored := Function.update hijacked recIdx backup
  (result.1, restored, result.2)

/-- `InactivePageTable0::new_bare` as compiled for this target: one frame is
taken from the external allocator (`alloc_frame().expect(...)`, fatal when
exhausted, modelled as `Except.error`) and returned as the owned root
together with the untouched frame memory. The zeroing block and the
recursive-slot block in the source are guarded by `#[cfg(arch = "riscv32")]`
and `#[cfg(arch = "riscv64")]`; the cfg key `arch` — unlike the
`target_arch` key used everywhere else in the file — is never set, so both
blocks are compiled out and the frame's stale contents are kept. -/
def InactivePageTable0.new_bare (free : List Nat) (mem : Nat → PTable) :
    Except Unit (Nat × List Nat × (Nat → PTable)) :=
  match free with
  | [] => Except.error ()
  | f :: rest => Except.ok (f, rest, mem)

/-- `EF::VALID | EF::READABLE | EF::WRITABLE | EF::EXECUTABLE`, the flags of
the kernel linear mapping installed by the riscv32 `map_kernel`. -/
def EF.kernelLinear : EF :=
  ⟨true, true, true, true, false, false, false, false, false, false⟩

/-- One slot of the riscv32 kernel linear mapping:
`table[i].set(Frame::of_addr((i - 256) << 22), V|R|W|X)`. -/
def kernelLinearEntry (i : Nat) : PageTableEntry :=
  ⟨frameNumber ((i - 256) <<< 22), EF.kernelLinear⟩

/-- riscv32 `InactivePageTable0::map_kernel`: `for i in 256..1024` install
the 4 MiB linear kernel mapping into root slot `i`. -/
def InactivePageTable0.map_kernel (table : PTable) : PTable :=
  (List.range' 256 768).foldl
    (fun t i => Function.update t i (kernelLinearEntry i)) table

/-- riscv64 `InactivePageTable0::map_kernel`: read
`e1 = table[KERNEL_P4_INDEX]` through the active recursive window,
`assert!(!e1.is_unused())` (modelled as `Except.error`), then inside `edit`
write `e1` at the same index — during `edit` the recursive window reaches
this (inactive) root, so the write lands in `inactiveRoot`. -/
def InactivePageTable0.map_kernel64 (kernelP4Index : Nat)
    (activeRoot inactiveRoot : PTable) : Except Unit PTable :=
  if (activeRoot kernelP4Index).is_unused then
    Except.error ()
  else
    Except.ok
      (Function.update inactiveRoot kernelP4Index (activeRoot kernelP4Index))

/-- riscv32 `InactivePageTable0::token`:
`self.root_frame.number() | (1 << 31)` (the Sv32 satp value). -/
def InactivePageTable0.token32 (rootFrameNumber : Nat) : Nat :=
  rootFrameNumber ||| (1 <<< 31)

/-- The all-ones 64-bit `usize` word (`!0`). -/
def usizeMax : Nat := 2 ^ 64 - 1

/-- `BitField::set_bits(lo..hi, value)` on a 64-bit `usize`: clear the bits
of the range and or in `value` shifted to the range's start. -/
def setBits (x lo hi value : Nat) : Nat :=
  (x &&& (usizeMax ^^^ ((2 ^ (hi - lo) - 1) <<< lo))) ||| (value <<< lo)

/-- riscv64 `InactivePageTable0::token`: start from the root frame number,
`set_bits(44..60, 0)` (address-space id 0), then `set_bits(60..64, mode)`
with `mode` the satp mode selector (`Sv39 as usize = 8`,
`Sv48 as usize = 9`). -/
def InactivePageTable0.token64 (mode rootFrameNumber : Nat) : Nat :=
  setBits (setBits rootFrameNumber 44 60 0) 60 64 mode

/-- The ordering property of claim C5: in an operation's event list, every
table mutation is followed (strictly later) by a translation-cache flush. -/
def flushedAfter (tr : List Event) : Prop :=
  ∀ i, ∀ hi : i < tr.length, tr.get ⟨i, hi⟩ = Event.mutate →
    ∃ j, ∃ hj : j < tr.length, i < j ∧ tr.get ⟨j, hj⟩ = Event.flush

/-- A page-table state with an all-unused root, no p1 tables, and one free
frame (number 7); used to exercise `map` on concrete input. -/
def mapDemoState : PTState :=
  ⟨zeroTable, fun _ => zeroTable, [7]⟩

/-- The state produced by `map` of virtual address 0 to physical address
4096 on `mapDemoState`. -/
def mapDemoResult : PTState :=
  match ActivePageTable.map mapDemoState 0 4096 with
  | Except.ok (s, _) => s
  | Except.error () => mapDemoState

/-- The state produced by `unmap` of virtual address 0 on `mapDemoResult`. -/
def unmapDemoResult : PTState :=
  match ActivePageTable.unmap mapDemoResult 0 with
  | Except.ok (s, _) => s
  | Except.error () => mapDemoResult

/-- Stale pre-allocation contents of a frame: every slot still holds a used
entry (frame 5, default flags). -/
def staleTable : PTable := fun _ => ⟨5, EF.defaultMap⟩

/-- Physical memory in which every frame holds `staleTable`. -/
def staleMem : Nat → PTable := fun _ => staleTable

/-- A root table whose every slot is a used intermediate entry; a concrete
active root for exercising `map_kernel64`. -/
def demoActiveRoot : PTable := fun _ => ⟨1, EF.validOnly⟩

/-- Claim C6: no flag mutation changes which frame the entry refers to —
`target()` is preserved by every flag mutator, only `set_target` changes the
installed frame (to the base of the frame containing the given address) and
`set_target` preserves the whole flag set; in particular toggling
`set_writable true` then `set_writable false` never changes `target()`. -/
theorem flag_mutations_preserve_target (e : PageTableEntry) (b : Bool) (m t : Nat) :
    PageEntry.target (PageEntry.set_writable e b) = PageEntry.target e ∧
    PageEntry.target (PageEntry.set_present e b) = PageEntry.target e ∧
    PageEntry.target (PageEntry.set_user e b) = PageEntry.target e ∧
    PageEntry.target (PageEntry.set_execute e b) = PageEntry.target e ∧
    PageEntry.target (PageEntry.set_shared e b) = PageEntry.target e ∧
    PageEntry.target (PageEntry.clear_shared e) = PageEntry.target e ∧
    PageEntry.target (PageEntry.set_swapped e b) = PageEntry.target e ∧
    PageEntry.target (PageEntry.clear_accessed e) = PageEntry.target e ∧
    PageEntry.target (PageEntry.clear_dirty e) = PageEntry.target e ∧
    PageEntry.target (PageEntry.set_mmio e m) = PageEntry.target e ∧
    PageEntry.target (PageEntry.set_target e t) = frameBase t ∧
    (PageEntry.set_target e t).flags = e.flags ∧
    PageEntry.target (PageEntry.set_writable (PageEntry.set_writable e true) false)
      = PageEntry.target e :=
  ⟨rfl, rfl, rfl, rfl, rfl, rfl, rfl, rfl, rfl, rfl, rfl, rfl, rfl⟩

/-- Claim C7: `swapped()` and `writable_shared()` read the same reserved bit
(RESERVED1), so they always return equal values; after `set_swapped true` the
entry also reports `writable_shared = true`, and a swapped entry is
indistinguishable from a writable-shared one by these observers. -/
theorem swapped_equals_writable_shared (e : PageTableEntry) (b : Bool) :
    PageEntry.swapped e = PageEntry.writable_shared e ∧
    PageEntry.writable_shared (PageEntry.set_swapped e true) = true ∧
    PageEntry.swapped (PageEntry.set_swapped e b) = b ∧
    (PageEntry.swapped e = true ↔ PageEntry.writable_shared e = true) :=
  ⟨rfl, rfl, rfl, Iff.rfl⟩

/-- Claim C10: `present()` is true exactly when both VALID and READABLE are
set; `set_present v` writes both bits to `v`, so an entry with VALID set but
READABLE clear reports not-present, and `set_present false` also removes
readability. -/
theorem present_requires_valid_and_readable (e : PageTableEntry) (v : Bool)
    (p : Nat) (w x u g a d r1 r2 : Bool) :
    PageEntry.present e = (e.flags.valid && e.flags.readable) ∧
    (PageEntry.set_present e v).flags.valid = v ∧
    (PageEntry.set_present e v).flags.readable = v ∧
    PageEntry.present ⟨p, ⟨true, false, w, x, u, g, a, d, r1, r2⟩⟩ = false ∧
    (PageEntry.set_present e false).flags.readable = false ∧
    PageEntry.present (PageEntry.set_present e false) = false :=
  ⟨rfl, rfl, rfl, rfl, rfl, rfl⟩

/-- Helper: an event list ending in a flush satisfies the flush-ordering
property, whatever comes before. -/
theorem flushedAfter_concat_flush (l : List Event) :
    flushedAfter (l ++ [Event.flush]) := by
  intro i hi hm
  have hget : (l ++ [Event.flush]).get ⟨l.length, by simp⟩ = Event.flush := by
    simp [List.get_eq_getElem, List.getElem_concat_length]
  refine ⟨l.length, by simp, ?_, hget⟩
  rcases Nat.lt_or_ge i l.length with h | h
  · exact h
  · exfalso
    have hil : i = l.length := by
      have hlt : i < l.length + 1 := by simpa using hi
      omega
    have hfin : (⟨i, hi⟩ : Fin (l ++ [Event.flush]).length)
        = ⟨l.length, by simp⟩ := Fin.ext hil
    rw [hfin, hget] at hm
    cases hm

/-- Claim C1: when `map(v, p)` succeeds, `get_entry(v)` finds an entry that
is present and writable and whose `target()` is the base address of the
frame containing `p` (the default flags VALID, READABLE, WRITABLE are
installed). -/
theorem map_installs_default_translation (st stF : PTState) (tr : List Event)
    (v p : Nat)
    (h : ActivePageTable.map st v p = Except.ok (stF, tr)) :
    ∃ e, ActivePageTable.get_entry stF v = some e ∧
      PageEntry.present e = true ∧ PageEntry.writable e = true ∧
      PageEntry.target e = frameBase p := by
  unfold ActivePageTable.map at h
  cases hE : ensureP1 st (vpn1 v) with
  | error e => rw [hE] at h; cases h
  | ok trip =>
    obtain ⟨f, st1, ev1⟩ := trip
    rw [hE] at h
    dsimp only at h
    by_cases h2 : (st1.p1mem f (vpn0 v)).is_unused
    · rw [if_pos h2] at h
      simp only [Except.ok.injEq, Prod.mk.injEq] at h
      obtain ⟨hst, -⟩ := h
      subst hst
      unfold ensureP1 at hE
      by_cases h1 : (st.p2 (vpn1 v)).flags.valid
      · rw [if_pos h1] at hE
        simp only [Except.ok.injEq, Prod.mk.injEq] at hE
        obtain ⟨hf, hst1, -⟩ := hE
        subst hst1
        refine ⟨⟨frameNumber p, EF.defaultMap⟩, ?_, rfl, rfl, rfl⟩
        simp [ActivePageTable.get_entry, h1, ← hf, Function.update_same]
      · rw [if_neg h1] at hE
        cases hfree : st.free with
        | nil => rw [hfree] at hE; cases hE
        | cons f0 rest =>
          rw [hfree] at hE
          simp only [Except.ok.injEq, Prod.mk.injEq] at hE
          obtain ⟨hf, hst1, -⟩ := hE
          subst hst1
          refine ⟨⟨frameNumber p, EF.defaultMap⟩, ?_, rfl, rfl, rfl⟩
          simp [ActivePageTable.get_entry, ← hf, Function.update_same, EF.validOnly]
    · rw [if_neg h2] at h
      cases h

/-- Witness for C1 at concrete input: mapping virtual address 0 to physical
address 4096 on a fresh state with one free frame. -/
theorem map_installs_default_translation_witness :
    ∃ e, ActivePageTable.get_entry mapDemoResult 0 = some e ∧
      PageEntry.present e = true ∧ PageEntry.writable e = true ∧
      PageEntry.target e = frameBase 4096 :=
  map_installs_default_translation mapDemoState mapDemoResult
    [Event.mutate, Event.mutate, Event.flush] 0 4096 rfl

/-- Claim C4: `get_entry` reports a missing intermediate level as a normal
`none` result — exactly when the root entry for the address is not valid —
and never consults the allocator (its result ignores the free list, and it
returns no new state); whereas `unmap` of an address with no mapping
(missing level, or a non-valid leaf) is fatal (`Except.error`, the `unwrap`
panic) and never returns normally. -/
theorem get_entry_nonfatal_unmap_fatal :
    (∀ st v, ActivePageTable.get_entry st v = none ↔
        (st.p2 (vpn1 v)).flags.valid = false) ∧
    (∀ st v fr, ActivePageTable.get_entry { st with free := fr } v
        = ActivePageTable.get_entry st v) ∧
    (∀ st v, ActivePageTable.get_entry st v = none →
        ActivePageTable.unmap st v = Except.error ()) ∧
    (∀ st v e, ActivePageTable.get_entry st v = some e →
        e.flags.valid = false → ActivePageTable.unmap st v = Except.error ()) := by
  refine ⟨?_, ?_, ?_, ?_⟩
  · intro st v
    by_cases h1 : (st.p2 (vpn1 v)).flags.valid
    · simp [ActivePageTable.get_entry, h1]
    · simp only [ActivePageTable.get_entry, if_neg h1]
      simpa using h1
  · intro st v fr
    rfl
  · intro st v h
    unfold ActivePageTable.get_entry at h
    by_cases h1 : (st.p2 (vpn1 v)).flags.valid
    · rw [if_pos h1] at h; cases h
    · unfold ActivePageTable.unmap
      rw [if_neg h1]
  · intro st v e hsome hval
    unfold ActivePageTable.get_entry at hsome
    by_cases h1 : (st.p2 (vpn1 v)).flags.valid
    · rw [if_pos h1] at hsome
      injection hsome with he
      unfold ActivePageTable.unmap
      rw [if_pos h1, he, if_neg (by simp [hval])]
    · rw [if_neg h1] at hsome; cases hsome

/-- Witness for C4 at concrete input: on a state with an all-unused root,
`get_entry 0` is `none` and `unmap 0` is fatal. -/
theorem get_entry_nonfatal_unmap_fatal_witness :
    (ActivePageTable.get_entry mapDemoState 0 = none ↔
        (mapDemoState.p2 (vpn1 0)).flags.valid = false) ∧
    ActivePageTable.unmap mapDemoState 0 = Except.error () :=
  ⟨get_entry_nonfatal_unmap_fatal.1 mapDemoState 0,
   get_entry_nonfatal_unmap_fatal.2.2.1 mapDemoState 0 rfl⟩

/-- Claim C2: `edit(f)` restores the hijacked recursive slot of the active
root on every exit path — the active root after `edit` equals the root
before, slot by slot — while `f`'s result (which may itself be a failure
value) and its edits to the inactive space are passed through; hence every
translation the caller had installed in the active space is observably
unchanged, as witnessed through `get_entry`. -/
theorem edit_restores_active_translation {T M : Type} (recIdx rootFrame : Nat)
    (f : M → T × M) (activeRoot : PTable) (inactive : M) :
    (InactivePageTable0.edit recIdx rootFrame f activeRoot inactive).2.1
      = activeRoot ∧
    (InactivePageTable0.edit recIdx rootFrame f activeRoot inactive).1
      = (f inactive).1 ∧
    (InactivePageTable0.edit recIdx rootFrame f activeRoot inactive).2.2
      = (f inactive).2 ∧
    ∀ (p1mem : Nat → PTable) (fr : List Nat) (v : Nat),
      ActivePageTable.get_entry
        ⟨(InactivePageTable0.edit recIdx rootFrame f activeRoot inactive).2.1,
          p1mem, fr⟩ v
        = ActivePageTable.get_entry ⟨activeRoot, p1mem, fr⟩ v := by
  have hroot :
      (InactivePageTable0.edit recIdx rootFrame f activeRoot inactive).2.1
        = activeRoot := by
    show Function.update
        (Function.update activeRoot recIdx ⟨rootFrame, EF.validOnly⟩)
        recIdx (activeRoot recIdx) = activeRoot
    rw [Function.update_idem, Function.update_eq_self]
  exact ⟨hroot, rfl, rfl, fun p1mem fr v => by rw [hroot]⟩

/-- Claim C3 (evaluation at the failing input): `new_bare` with one free
frame (number 100) whose memory still holds stale used entries consumes
exactly that frame from the allocator but returns its memory untouched —
slot 0 of the returned root table is still a used, present entry pointing at
frame 5, because the zeroing (and recursive-slot) code is compiled out by
the `cfg(arch = ...)` typo. -/
theorem new_bare_keeps_stale_root_contents :
    InactivePageTable0.new_bare [100] staleMem
      = Except.ok (100, [], staleMem) ∧
    (staleMem 100 0).is_unused = false ∧
    PageEntry.present (staleMem 100 0) = true ∧
    PageEntry.target (staleMem 100 0) = 5 <<< 12 :=
  ⟨rfl, rfl, rfl, rfl⟩

/-- Claim C5: every structural mutation performed by a completed `map` or
`unmap`, by an entry flag change committed via `update()`, and by the
recursive-slot hijack and restore inside `edit`, is followed later in the
operation's event sequence by a translation-cache flush. -/
theorem structural_mutations_flushed :
    (∀ st v p stF tr, ActivePageTable.map st v p = Except.ok (stF, tr) →
        flushedAfter tr) ∧
    (∀ st v stF tr, ActivePageTable.unmap st v = Except.ok (stF, tr) →
        flushedAfter tr) ∧
    flushedAfter committed_flag_change_events ∧
    (∀ trF, flushedAfter (edit_events trF)) := by
  refine ⟨?_, ?_, ?_, ?_⟩
  · intro st v p stF tr h
    unfold ActivePageTable.map at h
    cases hE : ensureP1 st (vpn1 v) with
    | error e => rw [hE] at h; cases h
    | ok trip =>
      obtain ⟨f, st1, ev1⟩ := trip
      rw [hE] at h
      dsimp only at h
      by_cases h2 : (st1.p1mem f (vpn0 v)).is_unused
      · rw [if_pos h2] at h
        simp only [Except.ok.injEq, Prod.mk.injEq] at h
        obtain ⟨-, htr⟩ := h
        rw [← htr]
        have hsplit : ev1 ++ [Event.mutate, Event.flush]
            = (ev1 ++ [Event.mutate]) ++ [Event.flush] := by simp
        rw [hsplit]
        exact flushedAfter_concat_flush _
      · rw [if_neg h2] at h; cases h
  · intro st v stF tr h
    unfold ActivePageTable.unmap at h
    by_cases h1 : (st.p2 (vpn1 v)).flags.valid
    · rw [if_pos h1] at h
      by_cases h2 : (st.p1mem (st.p2 (vpn1 v)).ppn (vpn0 v)).flags.valid
      · rw [if_pos h2] at h
        simp only [Except.ok.injEq, Prod.mk.injEq] at h
        obtain ⟨-, htr⟩ := h
        rw [← htr]
        exact flushedAfter_concat_flush [Event.mutate]
      · rw [if_neg h2] at h; cases h
    · rw [if_neg h1] at h; cases h
  · exact flushedAfter_concat_flush [Event.mutate]
  · intro trF
    have hsplit : edit_events trF
        = ([Event.mutate, Event.flush] ++ trF ++ [Event.mutate])
            ++ [Event.flush] := by
      simp [edit_events]
    rw [hsplit]
    exact flushedAfter_concat_flush _

/-- Witness for C5 at concrete input: the event sequences of the successful
concrete `map` (allocating one intermediate table) and of the following
`unmap` both satisfy the flush-ordering property. -/
theorem structural_mutations_flushed_witness :
    flushedAfter [Event.mutate, Event.mutate, Event.flush] ∧
    flushedAfter [Event.mutate, Event.flush] :=
  ⟨structural_mutations_flushed.1 mapDemoState 0 4096 mapDemoResult
      [Event.mutate, Event.mutate, Event.flush] rfl,
   structural_mutations_flushed.2.1 mapDemoResult 0 unmapDemoResult
      [Event.mutate, Event.flush] rfl⟩

/-- Helper: applying the riscv32 kernel-mapping loop pointwise — a fold of
updates over `range' s n` rewrites exactly the indices in `[s, s + n)`. -/
theorem foldl_update_apply (g : Nat → PageTableEntry) :
    ∀ (n s : Nat) (t : PTable) (j : Nat),
      ((List.range' s n).foldl (fun t i => Function.update t i (g i)) t) j
        = if s ≤ j ∧ j < s + n then g j else t j := by
  intro n
  induction n with
  | zero =>
    intro s t j
    rw [if_neg (by omega)]
    rfl
  | succ n ih =>
    intro s t j
    rw [List.range'_succ, List.foldl_cons, ih]
    by_cases hj : s + 1 ≤ j ∧ j < s + 1 + n
    · rw [if_pos hj, if_pos (by omega)]
    · rw [if_neg hj, Function.update_apply]
      by_cases hjs : j = s
      · rw [if_pos hjs, if_pos (by omega), hjs]
      · rw [if_neg hjs, if_neg (by omega)]

/-- Helper: the riscv32 `map_kernel` result, slot by slot. -/
theorem map_kernel_apply (t : PTable) (j : Nat) :
    InactivePageTable0.map_kernel t j
      = if 256 ≤ j ∧ j < 1024 then kernelLinearEntry j else t j := by
  have h := foldl_update_apply kernelLinearEntry 768 256 t j
  simpa using h

/-- Claim C8: `map_kernel` is idempotent — running it twice yields the same
root table as running it once — and it never modifies a user-half (lower
256) slot; likewise the riscv64 variant: a second run over an unchanged
active root rewrites the kernel slot with the same entry, and no slot other
than the kernel index (which lies in the kernel half) changes. -/
theorem map_kernel_idempotent_preserves_user_half :
    (∀ t : PTable,
        InactivePageTable0.map_kernel (InactivePageTable0.map_kernel t)
          = InactivePageTable0.map_kernel t) ∧
    (∀ (t : PTable) (i : Nat), i < 256 →
        InactivePageTable0.map_kernel t i = t i) ∧
    (∀ (k : Nat) (a r r2 : PTable),
        InactivePageTable0.map_kernel64 k a r = Except.ok r2 →
        InactivePageTable0.map_kernel64 k a r2 = Except.ok r2) ∧
    (∀ (k : Nat) (a r r2 : PTable) (i : Nat), 256 ≤ k → i < 256 →
        InactivePageTable0.map_kernel64 k a r = Except.ok r2 → r2 i = r i) := by
  refine ⟨?_, ?_, ?_, ?_⟩
  · intro t
    funext j
    simp only [map_kernel_apply]
    by_cases hc : 256 ≤ j ∧ j < 1024
    · simp [hc]
    · simp [hc]
  · intro t i hi
    rw [map_kernel_apply, if_neg (by omega)]
  · intro k a r r2 h
    unfold InactivePageTable0.map_kernel64 at h ⊢
    by_cases hu : (a k).is_unused
    · rw [if_pos hu] at h; cases h
    · rw [if_neg hu] at h
      simp only [Except.ok.injEq] at h
      rw [if_neg hu, ← h, Function.update_idem]
  · intro k a r r2 i hk hi h
    unfold InactivePageTable0.map_kernel64 at h
    by_cases hu : (a k).is_unused
    · rw [if_pos hu] at h; cases h
    · rw [if_neg hu] at h
      simp only [Except.ok.injEq] at h
      rw [← h, Function.update_noteq (by omega)]

/-- Witness for C8 at concrete input: the riscv32 `map_kernel` leaves slot 0
of an all-unused root untouched; the riscv64 variant at kernel index 300 is
idempotent on the concrete result and leaves slot 0 untouched. -/
theorem map_kernel_idempotent_preserves_user_half_witness :
    InactivePageTable0.map_kernel zeroTable 0 = zeroTable 0 ∧
    InactivePageTable0.map_kernel64 300 demoActiveRoot
        (Function.update zeroTable 300 (demoActiveRoot 300))
      = Except.ok (Function.update zeroTable 300 (demoActiveRoot 300)) ∧
    Function.update zeroTable 300 (demoActiveRoot 300) 0 = zeroTable 0 :=
  ⟨map_kernel_idempotent_preserves_user_half.2.1 zeroTable 0 (by omega),
   map_kernel_idempotent_preserves_user_half.2.2.1 300 demoActiveRoot
      zeroTable (Function.update zeroTable 300 (demoActiveRoot 300)) rfl,
   map_kernel_idempotent_preserves_user_half.2.2.2 300 demoActiveRoot
      zeroTable (Function.update zeroTable 300 (demoActiveRoot 300)) 0
      (by omega) (by omega) rfl⟩

/-- Helper: bit `k` of the number 1. -/
theorem testBit_one_eq (k : Nat) : Nat.testBit 1 k = decide (k = 0) := by
  cases k with
  | zero => decide
  | succ k =>
    rw [Nat.testBit_succ]
    simp

/-- Helper: bits of the all-ones 64-bit word. -/
theorem testBit_usizeMax (j : Nat) :
    Nat.testBit usizeMax j = decide (j < 64) := by
  unfold usizeMax
  rw [Nat.testBit_two_pow_sub_one]

/-- Helper: bit `j < 64` of `set_bits(lo..hi, value)` — the original bit
masked out of the range, or-ed with the shifted value's bit. -/
theorem testBit_setBits (x lo hi value j : Nat) (hj : j < 64) :
    Nat.testBit (setBits x lo hi value) j
      = ((Nat.testBit x j && !(decide (lo ≤ j) && decide (j - lo < hi - lo)))
          || Nat.testBit (value <<< lo) j) := by
  unfold setBits
  rw [Nat.testBit_lor, Nat.testBit_land, Nat.testBit_xor, testBit_usizeMax,
    Nat.testBit_shiftLeft, Nat.testBit_two_pow_sub_one,
    decide_eq_true hj, Bool.true_xor]

/-- Claim C9: the activation token is computed bit-exactly — on riscv32 the
token is the root frame number with bit 31 set (all other bits unchanged);
on riscv64 it keeps the root frame number's bits below 44, clears bits
44..60, and carries the satp mode selector (Sv39 = 8, Sv48 = 9) in bits
60..64. -/
theorem token_bit_layout (n mode i : Nat) :
    (Nat.testBit (InactivePageTable0.token32 n) 31 = true) ∧
    (i ≠ 31 → Nat.testBit (InactivePageTable0.token32 n) i
        = Nat.testBit n i) ∧
    (i < 44 → Nat.testBit (InactivePageTable0.token64 mode n) i
        = Nat.testBit n i) ∧
    (44 ≤ i → i < 60 →
        Nat.testBit (InactivePageTable0.token64 mode n) i = false) ∧
    (60 ≤ i → i < 64 →
        Nat.testBit (InactivePageTable0.token64 mode n) i
          = Nat.testBit (mode <<< 60) i) := by
  refine ⟨?_, ?_, ?_, ?_, ?_⟩
  · have h : Nat.testBit (1 <<< 31) 31 = true := by decide
    rw [InactivePageTable0.token32, Nat.testBit_lor, h, Bool.or_true]
  · intro hne
    rw [InactivePageTable0.token32, Nat.testBit_lor, Nat.testBit_shiftLeft,
      testBit_one_eq]
    have h1 : (decide (i ≥ 31) && decide (i - 31 = 0)) = false := by
      by_cases hge : 31 ≤ i
      · have hpos : i - 31 ≠ 0 := by omega
        simp [hge, hpos]
      · simp [hge]
    rw [h1, Bool.or_false]
  · intro h44
    rw [InactivePageTable0.token64, testBit_setBits _ _ _ _ _ (by omega),
      testBit_setBits _ _ _ _ _ (by omega)]
    simp [Nat.testBit_shiftLeft, show ¬(44 ≤ i) from by omega,
      show ¬(60 ≤ i) from by omega]
  · intro h44 h60
    rw [InactivePageTable0.token64, testBit_setBits _ _ _ _ _ (by omega),
      testBit_setBits _ _ _ _ _ (by omega)]
    simp [Nat.testBit_shiftLeft, h44, show i - 44 < 60 - 44 from by omega,
      show ¬(60 ≤ i) from by omega]
  · intro h60 h64
    rw [InactivePageTable0.token64, testBit_setBits _ _ _ _ _ (by omega),
      testBit_setBits _ _ _ _ _ (by omega)]
    simp [Nat.testBit_shiftLeft, h60, show i - 60 < 64 - 60 from by omega]

/-- Witness for C9 at concrete inputs: bit 3 of the Sv32 token of frame
12345 matches the frame number; for the Sv39 token (mode 8), bit 3 matches
the frame number, bit 50 of the token of frame `2 ^ 50` is cleared, and bit
63 carries the mode. -/
theorem token_bit_layout_witness :
    Nat.testBit (InactivePageTable0.token32 12345) 3 = Nat.testBit 12345 3 ∧
    Nat.testBit (InactivePageTable0.token64 8 12345) 3
      = Nat.testBit 12345 3 ∧
    Nat.testBit (InactivePageTable0.token64 8 (2 ^ 50)) 50 = false ∧
    Nat.testBit (InactivePageTable0.token64 8 0) 63
      = Nat.testBit (8 <<< 60) 63 :=
  ⟨(token_bit_layout 12345 8 3).2.1 (by omega),
   (token_bit_layout 12345 8 3).2.2.1 (by omega),
   (token_bit_layout (2 ^ 50) 8 50).2.2.2.1 (by omega) (by omega),
   (token_bit_layout 0 8 63).2.2.2.2 (by omega) (by omega)⟩
